import Mathlib

/-!
Verification development for the dagger launcher (Python sources under
`apps/config/`).  The filesystem is modelled as a tree of named nodes, paths
as lists of segments from a virtual root, and the interactive functions
(`run_app`, `main_menu`, `settings_menu`) as pure functions over an input
script (the list of stdin lines) together with an oracle for child-process
outcomes.  Presentation-only side effects (colors, box borders, clearing the
screen) are not modelled; the displayed text lines and messages are kept as
events so that menu contents and error reports can be reasoned about.
-/

namespace Dagger

/-! ### Python string primitives used by the source -/

/-- Python `s.startswith(c)` for a single-character prefix: true iff the first
character of `s` is `c`. -/
def pyStartsWith1 (c : Char) (s : String) : Bool :=
  match s.data with
  | [] => false
  | a :: _ => a == c

/-- Python `s.endswith(c)` for a single-character suffix: true iff the last
character of `s` is `c`. -/
def pyEndsWith1 (c : Char) (s : String) : Bool :=
  match s.data.getLast? with
  | some a => a == c
  | none => false

/-- Python slice `s[1:-1]`: drop the first and the last character. -/
def pySlice1m1 (s : String) : String :=
  String.mk ((s.data.drop 1).dropLast)

/-- Python whitespace characters recognised by `str.strip()` (ASCII range). -/
def pyIsSpace (c : Char) : Bool :=
  c == ' ' || c == '\t' || c == '\n' || c == '\x0d' || c == '\x0b' || c == '\x0c'

/-- Python `s.strip()`: remove leading and trailing whitespace. -/
def pyStrip (s : String) : String :=
  String.mk (((s.data.dropWhile pyIsSpace).reverse.dropWhile pyIsSpace).reverse)

/-- Python `s.lower()` (ASCII model). -/
def pyLower (s : String) : String :=
  String.mk (s.data.map Char.toLower)

/-- Python `s.isdigit()` (ASCII model): nonempty and all characters digits. -/
def pyIsDigit (s : String) : Bool :=
  !s.data.isEmpty && s.data.all (fun c => c.isDigit)

/-- Python `int(s)` on a string of decimal digits. -/
def pyStrToNat (s : String) : Nat :=
  s.data.foldl (fun acc c => acc * 10 + (c.toNat - 48)) 0

/-! ### Filesystem model

A node is a file with text content or a directory with an ordered list of
named children (the order models `os.listdir` enumeration order). -/

inductive FSNode where
  | file (content : String)
  | dir (children : List (String × FSNode))

/-- A path: the list of name segments from the virtual root. -/
abbrev Path := List String

/-- Look up a child by name in a directory's child list (first match). -/
def childNamed (cs : List (String × FSNode)) (name : String) : Option FSNode :=
  match cs with
  | [] => none
  | (n, node) :: rest => if n = name then some node else childNamed rest name

/-- Resolve a path to a node, if it exists. -/
def findNode : Path → FSNode → Option FSNode
  | [], n => some n
  | _ :: _, .file _ => none
  | s :: rest, .dir cs =>
    match childNamed cs s with
    | none => none
    | some c => findNode rest c

/-- `os.path.exists`. -/
def pathExists (fs : FSNode) (p : Path) : Bool :=
  (findNode p fs).isSome

/-- `os.path.isdir`. -/
def isDirAt (fs : FSNode) (p : Path) : Bool :=
  match findNode p fs with
  | some (.dir _) => true
  | _ => false

/-- `os.listdir`: the child names of a directory, `none` when the path is
missing or is a file (the `OSError` case). -/
def listdir (fs : FSNode) (p : Path) : Option (List String) :=
  match findNode p fs with
  | some (.dir cs) => some (cs.map Prod.fst)
  | _ => none

/-- A fresh chain of directories, the innermost one empty. -/
def mkDirChain : Path → FSNode
  | [] => .dir []
  | s :: rest => .dir [(s, mkDirChain rest)]

/-- Replace the node stored under `name` (first occurrence). -/
def replaceChild (cs : List (String × FSNode)) (name : String) (node : FSNode) :
    List (String × FSNode) :=
  match cs with
  | [] => []
  | (n, c) :: rest =>
    if n = name then (n, node) :: rest else (n, c) :: replaceChild rest name node

/-- Replace the node stored under `name`, or append a new entry. -/
def upsertChild (cs : List (String × FSNode)) (name : String) (node : FSNode) :
    List (String × FSNode) :=
  match cs with
  | [] => [(name, node)]
  | (n, c) :: rest =>
    if n = name then (n, node) :: rest else (n, c) :: upsertChild rest name node

/-- `os.makedirs`: create the directory at the path, together with missing
intermediate directories.  `none` models `OSError` (target already present,
or a file standing in the way). -/
def makedirs : Path → FSNode → Option FSNode
  | [], _ => none
  | _ :: _, .file _ => none
  | [s], .dir cs =>
    match childNamed cs s with
    | some _ => none
    | none => some (.dir (cs ++ [(s, .dir [])]))
  | s :: rest, .dir cs =>
    match childNamed cs s with
    | some c =>
      match makedirs rest c with
      | none => none
      | some c2 => some (.dir (replaceChild cs s c2))
    | none => some (.dir (cs ++ [(s, mkDirChain rest)]))

/-- `open(path, "w").write(content)`: write a file into an existing parent
directory; `none` models `OSError` (missing parent, or a directory in the
way). -/
def writeFile (content : String) : Path → FSNode → Option FSNode
  | [], _ => none
  | _ :: _, .file _ => none
  | [s], .dir cs =>
    match childNamed cs s with
    | some (.dir _) => none
    | _ => some (.dir (upsertChild cs s (.file content)))
  | s :: rest, .dir cs =>
    match childNamed cs s with
    | some c =>
      match writeFile content rest c with
      | none => none
      | some c2 => some (.dir (replaceChild cs s c2))
    | none => none

/-! ### AppManager.list_apps (app_manager.py lines 155-167) -/

/-- `AppManager.list_apps`: the directories directly under `appsDir` that are
directories, are not literally named `config`, and are bracket-wrapped,
returned with the brackets stripped.  Missing root or `OSError` yield `[]`. -/
def list_apps (fs : FSNode) (appsDir : Path) : List String :=
  if pathExists fs appsDir = false then []
  else
    match listdir fs appsDir with
    | none => []
    | some names =>
      let all_dirs := names.filter
        (fun d => isDirAt fs (appsDir ++ [d]) && d ≠ "config")
      let app_dirs := all_dirs.filter
        (fun d => pyStartsWith1 '[' d && pyEndsWith1 ']' d)
      app_dirs.map pySlice1m1

/-! ### AppManager.run_app support (app_manager.py lines 169-239)

`run_app` is modelled as a pure function over the snapshot filesystem, the
script of stdin lines, and an oracle giving the outcome of each child-process
invocation.  Display side effects are recorded as events. -/

/-- Result fields of a completed `subprocess.run` call. -/
structure ProcResult where
  stdout : String
  stderr : String
  returncode : Nat
deriving DecidableEq, Repr

/-- Outcome of attempting to spawn the child process: either it ran to
completion, or the spawn itself failed (`OSError`, e.g. missing
interpreter). -/
inductive ProcOutcome where
  | completed (r : ProcResult)
  | spawnError (msg : String)
deriving DecidableEq, Repr

/-- Fixed execution environment for `run_app`: the child-process oracle and
the interpreter path (`sys.executable`). -/
structure RunEnv where
  exec : Path → ProcOutcome
  pyexe : String

/-- Observable actions of the launcher. -/
inductive Event where
  | drawBox (content : List String)
  | message (s : String)
  | errorMsg (s : String)
  | runProc (p : Path)
  | pressEnter
  | aliasAdd
  | aliasRemove
deriving DecidableEq, Repr

/-- How a call into the textual UI layer terminates. -/
inductive RunExit where
  | normal
  | sysExit (code : Nat)
  | raised (msg : String)
deriving DecidableEq, Repr

/-- Result of a `run_app` call: how it exited, the final value of
`self.apps_dir`, how many stdin lines it consumed, and the event trace. -/
structure RunOutcome where
  exit : RunExit
  appsDir : Path
  consumed : Nat
  events : List Event
deriving DecidableEq, Repr

/-- `UI.Style.SEPARATOR_MARKER` from the placeholder `UI` in
`app_manager.py`. -/
def sepMarker : String :=
  String.mk (List.replicate 40 '─')

/-- List enumeration starting at `k`, mirroring Python
`enumerate(xs, k)`. -/
def enumFrom (k : Nat) : List α → List (Nat × α)
  | [] => []
  | a :: as => (k, a) :: enumFrom (k + 1) as

/-- The sub-app scan of `run_app` (lines 174-182): bracket-wrapped child
directories of `app_dir`, brackets stripped; `OSError` yields `[]`. -/
def subAppsOf (fs : FSNode) (appDir : Path) : List String :=
  match listdir fs appDir with
  | none => []
  | some names =>
    (names.filter (fun d =>
      isDirAt fs (appDir ++ [d]) && pyStartsWith1 '[' d && pyEndsWith1 ']' d)).map
      pySlice1m1

/-- The choice-list content built by one iteration of the `run_app` menu loop
(lines 186-195). -/
def buildAppMenu (appName : String) (hasMain : Bool) (subApps : List String) :
    List String :=
  ["App: " ++ appName, sepMarker]
    ++ (if hasMain then ["1. Run this app", sepMarker] else [])
    ++ (enumFrom (if hasMain then 2 else 1) subApps).map
        (fun pr => toString pr.1 ++ ". " ++ pr.2)
    ++ [sepMarker, "b. Back to main menu", "q. Quit"]

/-- Decoded menu command. -/
inductive MenuCmd where
  | back
  | quit
  | runCurrent
  | descend (i : Nat)
  | invalidSub
  | invalidChoice
deriving DecidableEq, Repr

/-- The input dispatch of the `run_app` menu loop (lines 200-219): literal
`"b"`, `"q"`, `"1"` (only when the entrypoint exists), then digit strings
mapped through `index = int(choice) - offset`. -/
def interpretChoice (hasMain : Bool) (subCount : Nat) (choice : String) : MenuCmd :=
  if choice = "b" then .back
  else if choice = "q" then .quit
  else if choice = "1" ∧ hasMain = true then .runCurrent
  else if pyIsDigit choice = true then
    let offset : Int := if hasMain then 2 else 1
    let index : Int := (pyStrToNat choice : Int) - offset
    if 0 ≤ index ∧ index < subCount then .descend index.toNat else .invalidSub
  else .invalidChoice

/-- Python `str` of a `subprocess.CalledProcessError` raised by
`subprocess.run([sys.executable, app_path], check=True)` on a non-zero exit
status: it mentions the command and the status only. -/
def calledProcessErrorStr (pyexe : String) (appPath : Path) (code : Nat) : String :=
  "Command '['" ++ pyexe ++ "', '" ++ String.intercalate "/" appPath
    ++ "']' returned non-zero exit status " ++ toString code ++ "."

/-- The `input("Press Enter to continue...")` acknowledgment: consumes one
stdin line; end of input raises `EOFError` (uncaught in `run_app`). -/
def pressEnter (appsDir : Path) (inputs : List String) (evs : List Event) :
    RunOutcome :=
  match inputs with
  | [] => ⟨.raised "EOFError", appsDir, 0, evs ++ [.pressEnter]⟩
  | _ :: _ => ⟨.normal, appsDir, 1, evs ++ [.pressEnter]⟩

/-- The execution tail of `run_app` (lines 221-239): check for `main.py`,
spawn the child, report output.  A non-zero exit status surfaces as a
`CalledProcessError` caught by `except subprocess.SubprocessError`; in that
branch only the exception text is shown (the captured streams are not).  A
spawn `OSError` is not caught and propagates. -/
def execPart (env : RunEnv) (fs : FSNode) (appsDir : Path) (appName : String)
    (appPath : Path) (inputs : List String) : RunOutcome :=
  if pathExists fs appPath = false then
    ⟨.normal, appsDir, 0,
      [.errorMsg ("App '" ++ appName ++ "' does not have a main.py file.")]⟩
  else
    let runMsg := Event.message ("Running app: " ++ appName)
    match env.exec appPath with
    | .spawnError m => ⟨.raised m, appsDir, 0, [runMsg, .runProc appPath]⟩
    | .completed r =>
      if r.returncode = 0 then
        let evs := [runMsg, .runProc appPath]
          ++ (if r.stdout = "" then []
              else [.message ("App Output:\n" ++ r.stdout)])
          ++ (if r.stderr = "" then []
              else [.errorMsg ("Errors:\n" ++ r.stderr)])
          ++ [.message ("App '" ++ appName ++ "' finished")]
        pressEnter appsDir inputs evs
      else
        let emsg := "Running app '" ++ appName ++ "': "
          ++ calledProcessErrorStr env.pyexe appPath r.returncode
        pressEnter appsDir inputs [runMsg, .runProc appPath, .errorMsg emsg]

/-- `AppManager.run_app` (lines 169-239).  The `while True` menu loop is
modelled by re-entering the function on the remaining stdin lines: the
pre-loop catalog queries are pure over the snapshot filesystem, so re-running
them yields the same values the loop would have kept.  Descending into a
sub-app temporarily sets `self.apps_dir` to the sub-app directory; the
`finally` block restores it, which the model expresses by returning the
caller's `appsDir` in that branch; after the recursive call returns, the
current level returns as well (line 215). -/
def run_app (env : RunEnv) (fs : FSNode) (appsDir : Path) (appName : String)
    (inputs : List String) : RunOutcome :=
  let dirName := "[" ++ appName ++ "]"
  let appDir := appsDir ++ [dirName]
  let appPath := appDir ++ ["main.py"]
  let subApps := subAppsOf fs appDir
  if subApps.isEmpty then
    execPart env fs appsDir appName appPath inputs
  else
    let hasMain := pathExists fs appPath
    let content := buildAppMenu appName hasMain subApps
    match inputs with
    | [] => ⟨.raised "EOFError", appsDir, 0, [.drawBox content]⟩
    | choice :: rest =>
      match interpretChoice hasMain subApps.length choice with
      | .back => ⟨.normal, appsDir, 1, [.drawBox content]⟩
      | .quit => ⟨.sysExit 0, appsDir, 1, [.drawBox content]⟩
      | .runCurrent =>
        let e := execPart env fs appsDir appName appPath rest
        ⟨e.exit, appsDir, 1 + e.consumed, .drawBox content :: e.events⟩
      | .descend i =>
        let sub := run_app env fs appDir (subApps.getD i "") rest
        ⟨sub.exit, appsDir, 1 + sub.consumed, .drawBox content :: sub.events⟩
      | .invalidSub =>
        let cont := run_app env fs appsDir appName rest
        ⟨cont.exit, cont.appsDir, 1 + cont.consumed,
          .drawBox content :: .errorMsg "Invalid sub-app number." :: cont.events⟩
      | .invalidChoice =>
        let cont := run_app env fs appsDir appName rest
        ⟨cont.exit, cont.appsDir, 1 + cont.consumed,
          .drawBox content :: .errorMsg "Invalid choice." :: cont.events⟩

/-! ### AppManager.create_sample_app (app_manager.py lines 241-262) -/

inductive CreateResult where
  | created
  | alreadyExists
  | createFailed
deriving DecidableEq, Repr

/-- The entrypoint text written by `_create_main_py`. -/
def sampleCode (appName : String) : String :=
  "def main():\n    print(\"Hello from " ++ appName
    ++ "!\")\n\nif __name__ == \"__main__\":\n    main()\n"

/-- `AppManager.create_sample_app`: refuse when the bracket-wrapped directory
already exists; otherwise create the directory and write `main.py` into it.
An `OSError` after the directory creation leaves the directory in place
(the documented partial-state limitation). -/
def create_sample_app (fs : FSNode) (appsDir : Path) (appName : String) :
    FSNode × CreateResult :=
  let folderName := "[" ++ appName ++ "]"
  let appPath := appsDir ++ [folderName]
  if pathExists fs appPath then (fs, .alreadyExists)
  else
    match makedirs appPath fs with
    | none => (fs, .createFailed)
    | some fs1 =>
      match writeFile (sampleCode appName) (appPath ++ ["main.py"]) fs1 with
      | none => (fs1, .createFailed)
      | some fs2 => (fs2, .created)

/-- The spec-level `inspect(rootPath, displayName)` query, computed exactly as
`run_app` computes entrypoint presence (line 172 with line 221) and the
sub-entry list (lines 174-182). -/
structure AppEntry where
  hasEntrypoint : Bool
  subEntries : List String
deriving DecidableEq, Repr

def inspect_entry (fs : FSNode) (rootPath : Path) (displayName : String) : AppEntry :=
  let dirName := "[" ++ displayName ++ "]"
  let appDir := rootPath ++ [dirName]
  ⟨pathExists fs (appDir ++ ["main.py"]), subAppsOf fs appDir⟩

/-! ### UI.get_input (ui.py lines 77-84) -/

/-- What reading one line from stdin can produce. -/
inductive ReadResult where
  | line (s : String)
  | eofError
  | keyboardInterrupt
deriving DecidableEq, Repr

/-- `UI.get_input` from `ui.py`: strip and lowercase the entered line;
`EOFError` and `KeyboardInterrupt` are caught and turned into `"q"`. -/
def get_input (r : ReadResult) : String :=
  match r with
  | .line s => pyLower (pyStrip s)
  | .eofError => "q"
  | .keyboardInterrupt => "q"

/-! ### ConfigTool menus (config_tool.py)

`config_tool.py` reads through `ui.UI.get_input`, which strips, lowercases
and maps end of input to `"q"`; the shell-profile alias state touched by
`ConfigManager` lives outside the apps tree and is abstracted to a boolean
with `aliasAdd` / `aliasRemove` events. -/

/-- `UI.Style.SEPARATOR_MARKER` from `ui.py`. -/
def sepMarkerUi : String := "__SEPARATOR__"

/-- Session state threaded through the menus: the apps filesystem and the
shell-profile alias flag. -/
structure SessState where
  fs : FSNode
  aliasSet : Bool

/-- Result of a `settings_menu` call.  `hung` records that the source would
loop forever: on end of input `ui.UI.get_input` returns `"q"`, which the
Settings loop treats as an invalid choice and re-prompts. -/
structure MenuResult where
  state : SessState
  consumed : Nat
  events : List Event
  hung : Bool

/-- Result of a `main_menu` call, with the resulting process exit code. -/
structure SessionOutcome where
  state : SessState
  consumed : Nat
  events : List Event
  exitCode : Nat
  hung : Bool

/-- `ConfigTool.build_menu_content` (config_tool.py lines 19-42). -/
def build_menu_content (apps : List String) (_aliasSet : Bool) : List String :=
  ["Dagger", sepMarkerUi]
    ++ (if apps.isEmpty then ["No apps available yet."]
        else "Available Apps:" ::
          (enumFrom 1 apps).map (fun pr => toString pr.1 ++ ". " ++ pr.2))
    ++ [sepMarkerUi, "Options:", "s. Settings", "q. Quit"]

/-- The Settings box content (config_tool.py lines 80-84). -/
def buildSettingsContent (aliasSet : Bool) : List String :=
  ["Settings", sepMarkerUi, "Options:", "n. Create new sample app",
    (if aliasSet then "r. Remove alias 'dagger'" else "a. Add alias 'dagger'"),
    "b. Back to main menu"]

/-- The events reported for one `create_sample_app` outcome. -/
def createEvents (appName : String) (res : CreateResult) : List Event :=
  match res with
  | .created => [.message ("Sample app '" ++ appName ++ "' created in /apps.")]
  | .alreadyExists => [.errorMsg ("App '" ++ appName ++ "' already exists.")]
  | .createFailed => [.errorMsg "Creating app: OSError"]

/-- `ConfigTool.settings_menu` (config_tool.py lines 73-107): loop over the
remaining stdin lines; `"b"` returns, `"n"` reads a raw app name (its
`EOFError` is caught and the loop continues), `"a"`/`"r"` toggle the alias,
anything else is invalid. -/
def settings_menu (appsRoot : Path) (st : SessState) (inputs : List String) :
    MenuResult :=
  let content := buildSettingsContent st.aliasSet
  match inputs with
  | [] =>
    ⟨st, 0, [.drawBox content, .errorMsg "Invalid choice."], true⟩
  | raw :: rest =>
    let choice := get_input (.line raw)
    if choice = "b" then ⟨st, 1, [.drawBox content], false⟩
    else if choice = "n" then
      match rest with
      | [] =>
        let cont := settings_menu appsRoot st []
        ⟨cont.state, 1 + cont.consumed, .drawBox content :: cont.events, cont.hung⟩
      | name :: rest2 =>
        let trimmed := pyStrip name
        if trimmed = "" then
          let cont := settings_menu appsRoot st rest2
          ⟨cont.state, 2 + cont.consumed,
            .drawBox content :: .errorMsg "App name cannot be empty." :: cont.events,
            cont.hung⟩
        else
          let created := create_sample_app st.fs appsRoot trimmed
          let cont := settings_menu appsRoot ⟨created.1, st.aliasSet⟩ rest2
          ⟨cont.state, 2 + cont.consumed,
            .drawBox content :: (createEvents trimmed created.2 ++ cont.events),
            cont.hung⟩
    else if choice = "a" ∧ st.aliasSet = false then
      let cont := settings_menu appsRoot ⟨st.fs, true⟩ rest
      ⟨cont.state, 1 + cont.consumed, .drawBox content :: .aliasAdd :: cont.events,
        cont.hung⟩
    else if choice = "r" ∧ st.aliasSet = true then
      let cont := settings_menu appsRoot ⟨st.fs, false⟩ rest
      ⟨cont.state, 1 + cont.consumed, .drawBox content :: .aliasRemove :: cont.events,
        cont.hung⟩
    else
      let cont := settings_menu appsRoot st rest
      ⟨cont.state, 1 + cont.consumed,
        .drawBox content :: .errorMsg "Invalid choice." :: cont.events, cont.hung⟩
termination_by inputs.length
decreasing_by
  all_goals simp_wf
  all_goals omega

/-- `ConfigTool.main_menu` (config_tool.py lines 44-71): loop over stdin;
`"q"` (or end of input, via `ui.UI.get_input`) breaks out and the process
then exits 0; `"s"` enters Settings; a digit selects an app and calls
`run_app`.  A `SystemExit` raised by `run_app` is not an `Exception`, so the
surrounding `except Exception` does not catch it and the process exits with
its code; any other exception from `run_app` is caught, reported, and ends
the loop (the handler is outside the `while`), after which the process exits
0. -/
def main_menu (env : RunEnv) (appsRoot : Path) (st : SessState)
    (inputs : List String) : SessionOutcome :=
  let apps := list_apps st.fs appsRoot
  let content := build_menu_content apps st.aliasSet
  match inputs with
  | [] =>
    ⟨st, 0, [.drawBox content, .message "Exiting Config Tool."], 0, false⟩
  | raw :: rest =>
    let choice := get_input (.line raw)
    if choice = "q" then
      ⟨st, 1, [.drawBox content, .message "Exiting Config Tool."], 0, false⟩
    else if choice = "s" then
      let s := settings_menu appsRoot st rest
      if s.hung then
        ⟨s.state, 1 + s.consumed, .drawBox content :: s.events, 0, true⟩
      else
        let cont := main_menu env appsRoot s.state (rest.drop s.consumed)
        ⟨cont.state, 1 + s.consumed + cont.consumed,
          .drawBox content :: (s.events ++ cont.events), cont.exitCode, cont.hung⟩
    else if pyIsDigit choice = true then
      let index : Int := (pyStrToNat choice : Int) - 1
      if 0 ≤ index ∧ index < apps.length then
        let out := run_app env st.fs appsRoot (apps.getD index.toNat "") rest
        match out.exit with
        | .sysExit c =>
          ⟨st, 1 + out.consumed, .drawBox content :: out.events, c, false⟩
        | .raised m =>
          ⟨st, 1 + out.consumed,
            .drawBox content :: (out.events ++ [.errorMsg ("Unexpected error: " ++ m)]),
            0, false⟩
        | .normal =>
          let cont := main_menu env appsRoot st (rest.drop out.consumed)
          ⟨cont.state, 1 + out.consumed + cont.consumed,
            .drawBox content :: (out.events ++ cont.events), cont.exitCode, cont.hung⟩
      else
        let cont := main_menu env appsRoot st rest
        ⟨cont.state, 1 + cont.consumed,
          .drawBox content :: .errorMsg "Invalid app number." :: cont.events,
          cont.exitCode, cont.hung⟩
    else
      let cont := main_menu env appsRoot st rest
      ⟨cont.state, 1 + cont.consumed,
        .drawBox content :: .errorMsg "Invalid choice." :: cont.events,
        cont.exitCode, cont.hung⟩
termination_by inputs.length
decreasing_by
  all_goals simp [List.length_drop]
  all_goals omega

/-- The plain text carried by an event (used to ask whether a report mentions
a given fragment). -/
def eventText : Event → String
  | .drawBox c => String.intercalate "\n" c
  | .message s => s
  | .errorMsg s => s
  | .runProc _ => ""
  | .pressEnter => ""
  | .aliasAdd => ""
  | .aliasRemove => ""

/-- Whether the text of an event contains `needle` as a substring. -/
def eventContains (e : Event) (needle : String) : Bool :=
  decide (needle.data <:+: (eventText e).data)

/-- `inputs` leads, through the `run_app` menus, to a level whose next input
is `"q"`: either the current menu's next input is `"q"`, or the next input
validly descends into a sub-entry and the remaining script does so there. -/
inductive QuitNext (fs : FSNode) : Path → String → List String → Prop
  | here (d n rest)
      (hsub : subAppsOf fs (d ++ ["[" ++ n ++ "]"]) ≠ []) :
      QuitNext fs d n ("q" :: rest)
  | deeper (d n choice rest i)
      (hsub : subAppsOf fs (d ++ ["[" ++ n ++ "]"]) ≠ [])
      (hch : interpretChoice (pathExists fs (d ++ ["[" ++ n ++ "]"] ++ ["main.py"]))
               (subAppsOf fs (d ++ ["[" ++ n ++ "]"])).length choice = .descend i)
      (hnext : QuitNext fs (d ++ ["[" ++ n ++ "]"])
                 ((subAppsOf fs (d ++ ["[" ++ n ++ "]"])).getD i "") rest) :
      QuitNext fs d n (choice :: rest)

/-- The menu content `run_app` draws for entry `n` under root `d` (a
shorthand used by the unfolding equations below). -/
def entryMenu (fs : FSNode) (d : Path) (n : String) : List String :=
  buildAppMenu n (pathExists fs ((d ++ ["[" ++ n ++ "]"]) ++ ["main.py"]))
    (subAppsOf fs (d ++ ["[" ++ n ++ "]"]))

/-! ### Concrete fixtures used by witnesses and counterexamples -/

/-- An apps root holding a normal app, the reserved `config` directory, a
bracket-wrapped `[config]` directory, a plain file, and an app with an
entrypoint. -/
def fsT : FSNode :=
  .dir [("[Foo]", .dir []), ("config", .dir []), ("[config]", .dir []),
        ("notes", .file "x"), ("[Bar]", .dir [("main.py", .file "print()")])]

/-- An apps root with app `A` (no entrypoint) holding sub-app `B` (with
entrypoint). -/
def fsA : FSNode :=
  .dir [("[A]", .dir [("[B]", .dir [("main.py", .file "print()")])])]

/-- An apps root with app `X` carrying an entrypoint and no sub-apps. -/
def fsX : FSNode :=
  .dir [("[X]", .dir [("main.py", .file "print()")])]

/-- An oracle under which every spawned process succeeds quietly. -/
def envOk : RunEnv := ⟨fun _ => .completed ⟨"", "", 0⟩, "python3"⟩

/-- An oracle under which every spawned process exits 1 with stderr text
`boom`. -/
def envBoom : RunEnv := ⟨fun _ => .completed ⟨"", "boom", 1⟩, "python3"⟩

/-! ## Helper lemmas -/

theorem pyStartsWith1_iff {c : Char} {s : String} :
    pyStartsWith1 c s = true ↔ s.data.head? = some c := by
  unfold pyStartsWith1
  cases h : s.data <;> simp

theorem pyEndsWith1_iff {c : Char} {s : String} :
    pyEndsWith1 c s = true ↔ s.data.getLast? = some c := by
  unfold pyEndsWith1
  cases h : s.data.getLast? <;> simp

theorem list_head_last_decomp {l : List Char} {a z : Char}
    (h1 : l.head? = some a) (h2 : l.getLast? = some z) (hne : a ≠ z) :
    l = a :: ((l.drop 1).dropLast ++ [z]) := by
  cases l with
  | nil => simp at h1
  | cons x t =>
    have hx : x = a := by simpa using h1
    subst hx
    cases t with
    | nil =>
      simp at h2
      exact absurd h2 hne
    | cons y u =>
      have hne2 : (y :: u : List Char) ≠ [] := by simp
      have hlast : (y :: u).getLast hne2 = z := by
        rw [List.getLast?_cons_cons, List.getLast?_eq_getLast_of_ne_nil hne2] at h2
        exact Option.some.inj h2
      have hdec := List.dropLast_append_getLast hne2
      rw [hlast] at hdec
      have hdrop : ((x :: y :: u : List Char).drop 1).dropLast ++ [z] = y :: u := by
        simp only [List.drop_succ_cons, List.drop_zero]
        exact hdec
      rw [hdrop]

theorem data_wrap (x : String) : ("[" ++ x ++ "]").data = '[' :: (x.data ++ [']']) := by
  rw [String.data_append, String.data_append]
  rfl

theorem bracket_decomp {d : String} (h1 : pyStartsWith1 '[' d = true)
    (h2 : pyEndsWith1 ']' d = true) :
    d = "[" ++ pySlice1m1 d ++ "]" := by
  apply String.ext
  rw [data_wrap]
  have hd := list_head_last_decomp (pyStartsWith1_iff.mp h1) (pyEndsWith1_iff.mp h2)
    (by decide)
  conv_lhs => rw [hd]
  rfl

theorem pySlice1m1_wrap (x : String) : pySlice1m1 ("[" ++ x ++ "]") = x := by
  apply String.ext
  show ((("[" ++ x ++ "]").data.drop 1).dropLast) = x.data
  rw [data_wrap]
  simp

theorem startsWith_wrap (x : String) : pyStartsWith1 '[' ("[" ++ x ++ "]") = true := by
  rw [pyStartsWith1_iff, data_wrap]
  rfl

theorem endsWith_wrap (x : String) : pyEndsWith1 ']' ("[" ++ x ++ "]") = true := by
  rw [pyEndsWith1_iff, data_wrap]
  rw [show ('[' :: (x.data ++ [']']) : List Char) = ('[' :: x.data) ++ [']'] by simp]
  exact List.getLast?_concat _

theorem wrap_ne_config (x : String) : "[" ++ x ++ "]" ≠ "config" := by
  intro h
  have h1 := startsWith_wrap x
  rw [h] at h1
  exact absurd h1 (by decide)

theorem listdir_pathExists {fs : FSNode} {p : Path} {names : List String}
    (h : listdir fs p = some names) : pathExists fs p = true := by
  unfold listdir at h
  unfold pathExists
  cases hf : findNode p fs with
  | none => rw [hf] at h; exact absurd h (by simp)
  | some node => simp

theorem head?_dropWhile_not {p : Char → Bool} {l : List Char} {c : Char}
    (h : (l.dropWhile p).head? = some c) : p c = false := by
  induction l with
  | nil => simp at h
  | cons a t ih =>
    rw [List.dropWhile_cons] at h
    by_cases hp : p a = true
    · rw [if_pos hp] at h
      exact ih h
    · rw [if_neg hp] at h
      have : a = c := by simpa using h
      subst this
      simpa using hp

theorem getLast?_dropWhile_of_ne_nil {p : Char → Bool} {l : List Char}
    (h : l.dropWhile p ≠ []) : (l.dropWhile p).getLast? = l.getLast? := by
  have hsuf : l.dropWhile p <:+ l := List.dropWhile_suffix p
  obtain ⟨t, ht⟩ := hsuf
  conv_rhs => rw [← ht]
  exact (List.getLast?_append_of_ne_nil t h).symm

/-! ## Claims -/

/-- Claim C10: `UI.get_input` never raises on end of input: `EOFError` and
`KeyboardInterrupt` both yield the string `"q"`, and an entered line is
returned stripped of surrounding whitespace and lowercased (the result of
stripping has no leading or trailing whitespace). -/
theorem get_input_never_raises :
    get_input .eofError = "q" ∧ get_input .keyboardInterrupt = "q" ∧
    (∀ s, get_input (.line s) = pyLower (pyStrip s)) ∧
    (∀ s c, (pyStrip s).data.head? = some c → pyIsSpace c = false) ∧
    (∀ s c, (pyStrip s).data.getLast? = some c → pyIsSpace c = false) := by
  refine ⟨rfl, rfl, fun s => rfl, ?_, ?_⟩
  · intro s c h
    have hd : (pyStrip s).data
        = ((s.data.dropWhile pyIsSpace).reverse.dropWhile pyIsSpace).reverse := rfl
    rw [hd, List.head?_reverse] at h
    have hne : (s.data.dropWhile pyIsSpace).reverse.dropWhile pyIsSpace ≠ [] := by
      intro he
      rw [he] at h
      simp at h
    rw [getLast?_dropWhile_of_ne_nil hne, List.getLast?_reverse] at h
    exact head?_dropWhile_not h
  · intro s c h
    have hd : (pyStrip s).data
        = ((s.data.dropWhile pyIsSpace).reverse.dropWhile pyIsSpace).reverse := rfl
    rw [hd, List.getLast?_reverse] at h
    exact head?_dropWhile_not h

/-- Witness for C10 at a concrete line and at end of input. -/
theorem get_input_never_raises_witness :
    get_input (.line "  QuIt ") = "quit" ∧ get_input .eofError = "q" := by
  have h := get_input_never_raises
  refine ⟨?_, h.1⟩
  rw [h.2.2.1 "  QuIt "]
  decide

/-- Claim C4: when the bracket-wrapped directory already exists,
`create_sample_app` fails with the already-exists report and returns the
filesystem unchanged (hence the existing directory and all its contents are
exactly as before). -/
theorem create_sample_app_already_exists (fs : FSNode) (root : Path) (name : String)
    (h : pathExists fs (root ++ ["[" ++ name ++ "]"]) = true) :
    create_sample_app fs root name = (fs, .alreadyExists) := by
  unfold create_sample_app
  simp [h]

/-- Witness for C4: creating `X` when `[X]` exists fails and changes
nothing. -/
theorem create_sample_app_already_exists_witness :
    create_sample_app fsX [] "X" = (fsX, .alreadyExists) :=
  create_sample_app_already_exists fsX [] "X" (by decide)

/-- Claim C1 (counterexample): a directory named `[config]` IS listed by
`list_apps`, as display name `config` — the reserved-name exclusion does not
apply to the bracket-wrapped form. -/
theorem list_apps_lists_bracketed_config :
    list_apps (.dir [("[config]", .dir [])]) [] = ["config"] := by decide

/-- Claim C1 (amended): `list_apps` returns exactly the unwrapped names of
the bracket-wrapped child directories of the root: `x` is listed iff `[x]`
is a child directory.  The reserved-name filter compares the raw directory
name against `config`, which never matches a bracket-wrapped name, so it
excludes only a directory literally named `config` (and a directory named
`[config]` is listed as `config`). -/
theorem mem_list_apps_iff (fs : FSNode) (root : Path) (x : String) :
    x ∈ list_apps fs root ↔
      ∃ names, listdir fs root = some names ∧ ("[" ++ x ++ "]") ∈ names ∧
        isDirAt fs (root ++ ["[" ++ x ++ "]"]) = true := by
  unfold list_apps
  cases hex : pathExists fs root with
  | false =>
    simp only [hex]
    constructor
    · intro h
      simp at h
    · rintro ⟨names, hld, -, -⟩
      have := listdir_pathExists hld
      rw [hex] at this
      exact absurd this (by decide)
  | true =>
    cases hld : listdir fs root with
    | none =>
      simp [hld]
    | some names =>
      simp only [hex, hld, Bool.true_eq_false, if_false, Option.some.injEq]
      rw [List.mem_map]
      constructor
      · rintro ⟨d, hd, rfl⟩
        rw [List.mem_filter] at hd
        obtain ⟨hd1, hg⟩ := hd
        rw [List.mem_filter] at hd1
        obtain ⟨hmem, hf⟩ := hd1
        rw [Bool.and_eq_true] at hg
        rw [Bool.and_eq_true] at hf
        have hdec := bracket_decomp hg.1 hg.2
        refine ⟨names, rfl, ?_, ?_⟩
        · rw [← hdec]; exact hmem
        · rw [← hdec]; exact hf.1
      · rintro ⟨names2, hn2, hmem, hdir⟩
        obtain rfl : names = names2 := hn2
        refine ⟨"[" ++ x ++ "]", ?_, pySlice1m1_wrap x⟩
        rw [List.mem_filter, List.mem_filter]
        refine ⟨⟨hmem, ?_⟩, ?_⟩
        · rw [Bool.and_eq_true]
          exact ⟨hdir, by simp [wrap_ne_config x]⟩
        · rw [Bool.and_eq_true]
          exact ⟨startsWith_wrap x, endsWith_wrap x⟩

/-- Witness for C1 (amended): the characterization evaluated at a concrete
root and name. -/
theorem mem_list_apps_iff_witness : "Bar" ∈ list_apps fsT [] := by
  rw [mem_list_apps_iff fsT [] "Bar"]
  refine ⟨["[Foo]", "config", "[config]", "notes", "[Bar]"], ?_, ?_, ?_⟩ <;> decide

theorem enumFrom_length (k : Nat) (l : List α) : (enumFrom k l).length = l.length := by
  induction l generalizing k with
  | nil => rfl
  | cons a t ih => simp [enumFrom, ih]

theorem enumFrom_getElem? (k : Nat) (l : List α) (i : Nat) :
    (enumFrom k l)[i]? = (l[i]?).map (fun a => (k + i, a)) := by
  induction l generalizing k i with
  | nil => simp [enumFrom]
  | cons a t ih =>
    cases i with
    | zero => simp [enumFrom]
    | succ j =>
      have e : k + 1 + j = k + (j + 1) := by omega
      simp [enumFrom, ih (k + 1) j, e]

theorem pyIsDigit_ne_bq {c : String} (h : pyIsDigit c = true) : c ≠ "b" ∧ c ≠ "q" := by
  constructor <;> rintro rfl <;> exact absurd h (by decide)

theorem interpretChoice_digit (hasMain : Bool) (cnt : Nat) (choice : String) (n : Nat)
    (hdig : pyIsDigit choice = true) (hval : pyStrToNat choice = n)
    (hc3 : ¬(choice = "1" ∧ hasMain = true)) :
    interpretChoice hasMain cnt choice =
      (if (if hasMain then 2 else 1) ≤ n ∧ n < cnt + (if hasMain then 2 else 1)
       then .descend (n - (if hasMain then 2 else 1)) else .invalidSub) := by
  have hb := (pyIsDigit_ne_bq hdig).1
  have hq := (pyIsDigit_ne_bq hdig).2
  unfold interpretChoice
  rw [if_neg hb, if_neg hq, if_neg hc3, if_pos hdig, hval]
  cases hasMain <;>
    (dsimp only) <;> split_ifs <;>
    first
    | rfl
    | (congr 1; omega)
    | (exfalso; omega)

/-- Claim C3: with an entrypoint present and sub-entries `subs`, the rendered
choice list is exactly the header, option 1 (run this app), options numbered
from 2 listing the sub-entries in catalog order, and the back/quit footer;
the numeric options number `1 + N` in total, option `i + 2` being sub-entry
`i`.  A numeric input of value `n` maps back with the same offset: `"1"`
runs the current app, and otherwise index `n - 2` is selected iff
`0 ≤ n - 2 < N` (offset 1 instead of 2 when there is no entrypoint). -/
theorem menu_numbering_offset_consistent (name : String) (subs : List String) :
    (buildAppMenu name true subs =
      ["App: " ++ name, sepMarker, "1. Run this app", sepMarker]
        ++ (enumFrom 2 subs).map (fun pr => toString pr.1 ++ ". " ++ pr.2)
        ++ [sepMarker, "b. Back to main menu", "q. Quit"]) ∧
    (enumFrom 2 subs).length = subs.length ∧
    (∀ i, (enumFrom 2 subs)[i]? = (subs[i]?).map (fun s => (i + 2, s))) ∧
    (∀ choice n, pyIsDigit choice = true → pyStrToNat choice = n →
      (choice = "1" → interpretChoice true subs.length choice = .runCurrent) ∧
      (choice ≠ "1" →
        interpretChoice true subs.length choice =
          (if 2 ≤ n ∧ n < subs.length + 2 then .descend (n - 2) else .invalidSub)) ∧
      interpretChoice false subs.length choice =
        (if 1 ≤ n ∧ n < subs.length + 1 then .descend (n - 1) else .invalidSub)) := by
  refine ⟨by simp [buildAppMenu], enumFrom_length 2 subs, ?_, ?_⟩
  · intro i
    rw [enumFrom_getElem? 2 subs i]
    have e : 2 + i = i + 2 := by omega
    rw [e]
  · intro choice n hdig hval
    have hb := (pyIsDigit_ne_bq hdig).1
    have hq := (pyIsDigit_ne_bq hdig).2
    refine ⟨?_, ?_, ?_⟩
    · intro h1
      unfold interpretChoice
      rw [if_neg hb, if_neg hq, if_pos ⟨h1, rfl⟩]
    · intro h1
      have := interpretChoice_digit true subs.length choice n hdig hval
        (fun hc => h1 hc.1)
      simpa using this
    · have := interpretChoice_digit false subs.length choice n hdig hval
        (fun hc => by simpa using hc.2)
      simpa using this

/-- Witness for C3 at a concrete menu: two sub-entries, entrypoint present,
input `"3"` descends into sub-entry index 1. -/
theorem menu_numbering_offset_consistent_witness :
    interpretChoice true 2 "3" = .descend 1 ∧
    buildAppMenu "A" true ["X", "Y"] =
      ["App: A", sepMarker, "1. Run this app", sepMarker, "2. X", "3. Y",
        sepMarker, "b. Back to main menu", "q. Quit"] := by
  have h := menu_numbering_offset_consistent "A" ["X", "Y"]
  constructor
  · have h2 := (h.2.2.2 "3" 3 (by decide) (by decide)).2.1 (by decide)
    simpa using h2
  · rw [h.1]
    decide

theorem pressEnter_appsDir (d : Path) (inputs : List String) (evs : List Event) :
    (pressEnter d inputs evs).appsDir = d := by
  unfold pressEnter
  cases inputs <;> rfl

theorem execPart_appsDir (env : RunEnv) (fs : FSNode) (d : Path) (n : String)
    (p : Path) (inputs : List String) :
    (execPart env fs d n p inputs).appsDir = d := by
  unfold execPart
  split
  · rfl
  · split
    · rfl
    · split
      · exact pressEnter_appsDir _ _ _
      · exact pressEnter_appsDir _ _ _

theorem run_app_noSub_eq (env : RunEnv) (fs : FSNode) (d : Path) (n : String)
    (inputs : List String)
    (hsub : (subAppsOf fs (d ++ ["[" ++ n ++ "]"])).isEmpty = true) :
    run_app env fs d n inputs
      = execPart env fs d n ((d ++ ["[" ++ n ++ "]"]) ++ ["main.py"]) inputs := by
  conv_lhs => rw [run_app]
  rw [if_pos hsub]

theorem run_app_nil_menu_eq (env : RunEnv) (fs : FSNode) (d : Path) (n : String)
    (hsub : (subAppsOf fs (d ++ ["[" ++ n ++ "]"])).isEmpty = false) :
    run_app env fs d n []
      = ⟨.raised "EOFError", d, 0, [.drawBox (entryMenu fs d n)]⟩ := by
  conv_lhs => rw [run_app]
  rw [if_neg (by simp [hsub])]
  rfl

theorem run_app_back_eq (env : RunEnv) (fs : FSNode) (d : Path) (n c : String)
    (rest : List String)
    (hsub : (subAppsOf fs (d ++ ["[" ++ n ++ "]"])).isEmpty = false)
    (hch : interpretChoice (pathExists fs ((d ++ ["[" ++ n ++ "]"]) ++ ["main.py"]))
             (subAppsOf fs (d ++ ["[" ++ n ++ "]"])).length c = .back) :
    run_app env fs d n (c :: rest)
      = ⟨.normal, d, 1, [.drawBox (entryMenu fs d n)]⟩ := by
  conv_lhs => rw [run_app]
  rw [if_neg (by simp [hsub])]
  dsimp only
  rw [hch]
  rfl

theorem run_app_quit_eq (env : RunEnv) (fs : FSNode) (d : Path) (n c : String)
    (rest : List String)
    (hsub : (subAppsOf fs (d ++ ["[" ++ n ++ "]"])).isEmpty = false)
    (hch : interpretChoice (pathExists fs ((d ++ ["[" ++ n ++ "]"]) ++ ["main.py"]))
             (subAppsOf fs (d ++ ["[" ++ n ++ "]"])).length c = .quit) :
    run_app env fs d n (c :: rest)
      = ⟨.sysExit 0, d, 1, [.drawBox (entryMenu fs d n)]⟩ := by
  conv_lhs => rw [run_app]
  rw [if_neg (by simp [hsub])]
  dsimp only
  rw [hch]
  rfl

theorem run_app_runCurrent_eq (env : RunEnv) (fs : FSNode) (d : Path) (n c : String)
    (rest : List String)
    (hsub : (subAppsOf fs (d ++ ["[" ++ n ++ "]"])).isEmpty = false)
    (hch : interpretChoice (pathExists fs ((d ++ ["[" ++ n ++ "]"]) ++ ["main.py"]))
             (subAppsOf fs (d ++ ["[" ++ n ++ "]"])).length c = .runCurrent) :
    run_app env fs d n (c :: rest)
      = ⟨(execPart env fs d n ((d ++ ["[" ++ n ++ "]"]) ++ ["main.py"]) rest).exit, d,
          1 + (execPart env fs d n ((d ++ ["[" ++ n ++ "]"]) ++ ["main.py"]) rest).consumed,
          .drawBox (entryMenu fs d n)
            :: (execPart env fs d n ((d ++ ["[" ++ n ++ "]"]) ++ ["main.py"]) rest).events⟩ := by
  conv_lhs => rw [run_app]
  rw [if_neg (by simp [hsub])]
  dsimp only
  rw [hch]
  rfl

theorem run_app_descend_eq (env : RunEnv) (fs : FSNode) (d : Path) (n c : String)
    (rest : List String) (i : Nat)
    (hsub : (subAppsOf fs (d ++ ["[" ++ n ++ "]"])).isEmpty = false)
    (hch : interpretChoice (pathExists fs ((d ++ ["[" ++ n ++ "]"]) ++ ["main.py"]))
             (subAppsOf fs (d ++ ["[" ++ n ++ "]"])).length c = .descend i) :
    run_app env fs d n (c :: rest)
      = ⟨(run_app env fs (d ++ ["[" ++ n ++ "]"])
            ((subAppsOf fs (d ++ ["[" ++ n ++ "]"])).getD i "") rest).exit, d,
          1 + (run_app env fs (d ++ ["[" ++ n ++ "]"])
            ((subAppsOf fs (d ++ ["[" ++ n ++ "]"])).getD i "") rest).consumed,
          .drawBox (entryMenu fs d n)
            :: (run_app env fs (d ++ ["[" ++ n ++ "]"])
                  ((subAppsOf fs (d ++ ["[" ++ n ++ "]"])).getD i "") rest).events⟩ := by
  conv_lhs => rw [run_app]
  rw [if_neg (by simp [hsub])]
  dsimp only
  rw [hch]
  rfl

theorem run_app_invalidSub_eq (env : RunEnv) (fs : FSNode) (d : Path) (n c : String)
    (rest : List String)
    (hsub : (subAppsOf fs (d ++ ["[" ++ n ++ "]"])).isEmpty = false)
    (hch : interpretChoice (pathExists fs ((d ++ ["[" ++ n ++ "]"]) ++ ["main.py"]))
             (subAppsOf fs (d ++ ["[" ++ n ++ "]"])).length c = .invalidSub) :
    run_app env fs d n (c :: rest)
      = ⟨(run_app env fs d n rest).exit, (run_app env fs d n rest).appsDir,
          1 + (run_app env fs d n rest).consumed,
          .drawBox (entryMenu fs d n) :: .errorMsg "Invalid sub-app number."
            :: (run_app env fs d n rest).events⟩ := by
  conv_lhs => rw [run_app]
  rw [if_neg (by simp [hsub])]
  dsimp only
  rw [hch]
  rfl

theorem run_app_invalidChoice_eq (env : RunEnv) (fs : FSNode) (d : Path) (n c : String)
    (rest : List String)
    (hsub : (subAppsOf fs (d ++ ["[" ++ n ++ "]"])).isEmpty = false)
    (hch : interpretChoice (pathExists fs ((d ++ ["[" ++ n ++ "]"]) ++ ["main.py"]))
             (subAppsOf fs (d ++ ["[" ++ n ++ "]"])).length c = .invalidChoice) :
    run_app env fs d n (c :: rest)
      = ⟨(run_app env fs d n rest).exit, (run_app env fs d n rest).appsDir,
          1 + (run_app env fs d n rest).consumed,
          .drawBox (entryMenu fs d n) :: .errorMsg "Invalid choice."
            :: (run_app env fs d n rest).events⟩ := by
  conv_lhs => rw [run_app]
  rw [if_neg (by simp [hsub])]
  dsimp only
  rw [hch]
  rfl

/-- Claim C9: `run_app` always returns with `self.apps_dir` equal to its
value at entry: the root swapped to descend into a sub-app is restored by
the `finally` block on every path (normal return, `sys.exit`, and a
propagating exception alike). -/
theorem run_app_restores_apps_dir (env : RunEnv) (fs : FSNode) :
    ∀ (inputs : List String) (d : Path) (n : String),
      (run_app env fs d n inputs).appsDir = d := by
  intro inputs
  induction inputs with
  | nil =>
    intro d n
    by_cases hsub : (subAppsOf fs (d ++ ["[" ++ n ++ "]"])).isEmpty = true
    · rw [run_app_noSub_eq env fs d n [] hsub]
      exact execPart_appsDir _ _ _ _ _ _
    · rw [run_app_nil_menu_eq env fs d n (by simpa using hsub)]
  | cons c rest ih =>
    intro d n
    by_cases hsub : (subAppsOf fs (d ++ ["[" ++ n ++ "]"])).isEmpty = true
    · rw [run_app_noSub_eq env fs d n (c :: rest) hsub]
      exact execPart_appsDir _ _ _ _ _ _
    · have hs2 : (subAppsOf fs (d ++ ["[" ++ n ++ "]"])).isEmpty = false := by
        simpa using hsub
      cases hic : interpretChoice (pathExists fs ((d ++ ["[" ++ n ++ "]"]) ++ ["main.py"]))
          (subAppsOf fs (d ++ ["[" ++ n ++ "]"])).length c with
      | back => rw [run_app_back_eq env fs d n c rest hs2 hic]
      | quit => rw [run_app_quit_eq env fs d n c rest hs2 hic]
      | runCurrent => rw [run_app_runCurrent_eq env fs d n c rest hs2 hic]
      | descend i => rw [run_app_descend_eq env fs d n c rest i hs2 hic]
      | invalidSub =>
        rw [run_app_invalidSub_eq env fs d n c rest hs2 hic]
        exact ih d n
      | invalidChoice =>
        rw [run_app_invalidChoice_eq env fs d n c rest hs2 hic]
        exact ih d n

/-- Claim C6: selecting a valid sub-entry makes the current level return as
soon as the recursive call returns: the current call's outcome is exactly
the sub-call's outcome (same exit, same remaining input) behind the menu
box already drawn, with the caller's root restored — no further iteration
of the current menu loop happens, so control unwinds to the outermost
caller. -/
theorem descend_returns_to_outermost (env : RunEnv) (fs : FSNode) (d : Path)
    (n choice : String) (rest : List String) (i : Nat)
    (hsub : subAppsOf fs (d ++ ["[" ++ n ++ "]"]) ≠ [])
    (hch : interpretChoice (pathExists fs ((d ++ ["[" ++ n ++ "]"]) ++ ["main.py"]))
             (subAppsOf fs (d ++ ["[" ++ n ++ "]"])).length choice = .descend i) :
    run_app env fs d n (choice :: rest) =
      { exit := (run_app env fs (d ++ ["[" ++ n ++ "]"])
                   ((subAppsOf fs (d ++ ["[" ++ n ++ "]"])).getD i "") rest).exit,
        appsDir := d,
        consumed := 1 + (run_app env fs (d ++ ["[" ++ n ++ "]"])
                   ((subAppsOf fs (d ++ ["[" ++ n ++ "]"])).getD i "") rest).consumed,
        events := .drawBox (entryMenu fs d n)
          :: (run_app env fs (d ++ ["[" ++ n ++ "]"])
                ((subAppsOf fs (d ++ ["[" ++ n ++ "]"])).getD i "") rest).events } :=
  run_app_descend_eq env fs d n choice rest i (by simp [hsub]) hch

/-- Witness for C6: in `fsA`, input `"1"` at app `A` descends into `B`; the
level-`A` call returns right after the `B` run. -/
theorem descend_returns_to_outermost_witness :
    run_app envOk fsA [] "A" ["1", ""] =
      { exit := (run_app envOk fsA ([] ++ ["[" ++ "A" ++ "]"])
                   ((subAppsOf fsA ([] ++ ["[" ++ "A" ++ "]"])).getD 0 "") [""]).exit,
        appsDir := [],
        consumed := 1 + (run_app envOk fsA ([] ++ ["[" ++ "A" ++ "]"])
                   ((subAppsOf fsA ([] ++ ["[" ++ "A" ++ "]"])).getD 0 "") [""]).consumed,
        events := .drawBox (entryMenu fsA [] "A")
          :: (run_app envOk fsA ([] ++ ["[" ++ "A" ++ "]"])
                ((subAppsOf fsA ([] ++ ["[" ++ "A" ++ "]"])).getD 0 "") [""]).events } :=
  descend_returns_to_outermost envOk fsA [] "A" "1" [""] 0 (by decide) (by decide)

theorem pressEnter_no_drawBox (d : Path) (inputs : List String) (evs : List Event)
    (h : ∀ c, Event.drawBox c ∉ evs) :
    ∀ c, Event.drawBox c ∉ (pressEnter d inputs evs).events := by
  intro c
  unfold pressEnter
  cases inputs <;> simp <;> exact fun hc => absurd hc (h c)

theorem execPart_no_drawBox (env : RunEnv) (fs : FSNode) (d : Path) (n : String)
    (p : Path) (inputs : List String) :
    ∀ c, Event.drawBox c ∉ (execPart env fs d n p inputs).events := by
  intro c
  unfold execPart
  split
  · simp
  · split
    · simp
    · split
      · exact pressEnter_no_drawBox _ _ _ (by intro c2; split <;> split <;> simp) c
      · exact pressEnter_no_drawBox _ _ _ (by simp) c

theorem execPart_runProc_mem (env : RunEnv) (fs : FSNode) (d : Path) (n : String)
    (p : Path) (inputs : List String)
    (h : pathExists fs p = true) :
    Event.runProc p ∈ (execPart env fs d n p inputs).events := by
  unfold execPart
  rw [if_neg (by simp [h])]
  split
  · simp
  · split
    · unfold pressEnter
      cases inputs <;> simp
    · unfold pressEnter
      cases inputs <;> simp

/-- Claim C7: for an entry with no sub-entries, `run_app` goes straight to
the execution tail without rendering any choice list; with an entrypoint it
proceeds to run it (the spawn is attempted), and without one it reports the
missing `main.py` and returns to the caller having consumed no input and run
nothing. -/
theorem no_subentries_runs_directly (env : RunEnv) (fs : FSNode) (d : Path)
    (n : String) (inputs : List String)
    (hsub : subAppsOf fs (d ++ ["[" ++ n ++ "]"]) = []) :
    run_app env fs d n inputs
      = execPart env fs d n ((d ++ ["[" ++ n ++ "]"]) ++ ["main.py"]) inputs ∧
    (pathExists fs ((d ++ ["[" ++ n ++ "]"]) ++ ["main.py"]) = true →
      Event.runProc ((d ++ ["[" ++ n ++ "]"]) ++ ["main.py"])
          ∈ (run_app env fs d n inputs).events) ∧
    (∀ c, Event.drawBox c ∉ (run_app env fs d n inputs).events) ∧
    (pathExists fs ((d ++ ["[" ++ n ++ "]"]) ++ ["main.py"]) = false →
      run_app env fs d n inputs =
        ⟨.normal, d, 0,
          [.errorMsg ("App '" ++ n ++ "' does not have a main.py file.")]⟩) := by
  have heq : run_app env fs d n inputs
      = execPart env fs d n ((d ++ ["[" ++ n ++ "]"]) ++ ["main.py"]) inputs := by
    conv_lhs => rw [run_app]
    rw [if_pos (by simp [hsub])]
  refine ⟨heq, ?_, ?_, ?_⟩
  · intro h
    rw [heq]
    exact execPart_runProc_mem _ _ _ _ _ _ h
  · intro c
    rw [heq]
    exact execPart_no_drawBox _ _ _ _ _ _ c
  · intro h
    rw [heq]
    unfold execPart
    rw [if_pos (by simpa using h)]

/-- Witness for C7: app `X` of `fsX` has an entrypoint and no sub-entries. -/
theorem no_subentries_runs_directly_witness :
    run_app envOk fsX [] "X" [""]
        = execPart envOk fsX [] "X" [["[X]"], ["main.py"]].flatten [""] ∧
    Event.runProc [["[X]"], ["main.py"]].flatten
        ∈ (run_app envOk fsX [] "X" [""]).events := by
  have h := no_subentries_runs_directly envOk fsX [] "X" [""] (by decide)
  exact ⟨by simpa using h.1, by simpa using h.2.1 (by decide)⟩

set_option maxRecDepth 4096 in
/-- Claim C2 (counterexample): for an app whose process exits 1 with stderr
`boom`, the failure report of `run_app` does not contain the captured stderr
anywhere; what is shown is the exception text (command and exit status).
The run is still recovered (normal return). -/
theorem run_app_failure_report_omits_stderr :
    (run_app envBoom fsX [] "X" [""]).exit = .normal ∧
    (∃ e ∈ (run_app envBoom fsX [] "X" [""]).events,
      eventContains e "exit status 1" = true) ∧
    ∀ e ∈ (run_app envBoom fsX [] "X" [""]).events,
      eventContains e "boom" = false := by
  decide

/-- Claim C2 (amended): a non-zero exit status raises a
`CalledProcessError` that `except subprocess.SubprocessError` catches; the
report shown is the exception text — command and exit status only, with the
captured stdout and stderr discarded on this path — after which the user is
prompted and control returns to the caller.  A spawn failure (`OSError`) is
not a `SubprocessError`, so it is NOT caught by `run_app` and propagates to
the caller instead of being recovered. -/
theorem run_app_failure_reporting (env : RunEnv) (fs : FSNode) (d : Path)
    (n : String) (inputs : List String)
    (hsub : subAppsOf fs (d ++ ["[" ++ n ++ "]"]) = [])
    (hmain : pathExists fs ((d ++ ["[" ++ n ++ "]"]) ++ ["main.py"]) = true) :
    (∀ r i0 rest, inputs = i0 :: rest →
       env.exec ((d ++ ["[" ++ n ++ "]"]) ++ ["main.py"]) = .completed r →
       r.returncode ≠ 0 →
       run_app env fs d n inputs =
         ⟨.normal, d, 1,
           [.message ("Running app: " ++ n),
            .runProc ((d ++ ["[" ++ n ++ "]"]) ++ ["main.py"]),
            .errorMsg ("Running app '" ++ n ++ "': "
              ++ calledProcessErrorStr env.pyexe
                   ((d ++ ["[" ++ n ++ "]"]) ++ ["main.py"]) r.returncode),
            .pressEnter]⟩) ∧
    (∀ m, env.exec ((d ++ ["[" ++ n ++ "]"]) ++ ["main.py"]) = .spawnError m →
       run_app env fs d n inputs =
         ⟨.raised m, d, 0,
           [.message ("Running app: " ++ n),
            .runProc ((d ++ ["[" ++ n ++ "]"]) ++ ["main.py"])]⟩) := by
  constructor
  · rintro r i0 rest rfl hexec hcode
    rw [run_app_noSub_eq env fs d n (i0 :: rest) (by simp [hsub])]
    unfold execPart
    rw [if_neg (by
      simp only [List.append_assoc, List.cons_append, List.nil_append] at hmain
      simp [hmain])]
    rw [hexec]
    dsimp only
    rw [if_neg hcode]
    rfl
  · intro m hexec
    rw [run_app_noSub_eq env fs d n inputs (by simp [hsub])]
    unfold execPart
    rw [if_neg (by
      simp only [List.append_assoc, List.cons_append, List.nil_append] at hmain
      simp [hmain])]
    rw [hexec]

/-- Witness for C2 (amended): the non-zero-exit conjunct at a concrete app,
oracle and script. -/
theorem run_app_failure_reporting_witness :
    run_app envBoom fsX [] "X" [""] =
      ⟨.normal, [], 1,
        [.message ("Running app: " ++ "X"),
         .runProc (([] ++ ["[" ++ "X" ++ "]"]) ++ ["main.py"]),
         .errorMsg ("Running app '" ++ "X" ++ "': "
           ++ calledProcessErrorStr envBoom.pyexe
                (([] ++ ["[" ++ "X" ++ "]"]) ++ ["main.py"]) 1),
         .pressEnter]⟩ :=
  (run_app_failure_reporting envBoom fsX [] "X" [""] (by decide) (by decide)).1
    ⟨"", "boom", 1⟩ "" [] rfl rfl (by decide)

theorem childNamed_append_of_none {cs : List (String × FSNode)} {s : String}
    (h : childNamed cs s = none) (ds : List (String × FSNode)) :
    childNamed (cs ++ ds) s = childNamed ds s := by
  induction cs with
  | nil => rfl
  | cons a rest ih =>
    obtain ⟨n, c⟩ := a
    by_cases hn : n = s
    · simp [childNamed, hn] at h
    · simp only [childNamed, List.cons_append, if_neg hn] at h ⊢
      exact ih h

theorem childNamed_replaceChild_self {cs : List (String × FSNode)} {s : String}
    {c : FSNode} (h : childNamed cs s = some c) (x : FSNode) :
    childNamed (replaceChild cs s x) s = some x := by
  induction cs with
  | nil => simp [childNamed] at h
  | cons a rest ih =>
    obtain ⟨n, c0⟩ := a
    by_cases hn : n = s
    · subst hn
      simp [childNamed, replaceChild]
    · simp only [childNamed, replaceChild, if_neg hn] at h ⊢
      exact ih h

theorem findNode_append (p q : Path) (fs : FSNode) :
    findNode (p ++ q) fs = (findNode p fs).bind (findNode q) := by
  induction p generalizing fs with
  | nil => simp [findNode]
  | cons s rest ih =>
    cases fs with
    | file c => simp [findNode]
    | dir cs =>
      cases hc : childNamed cs s with
      | none => simp [findNode, hc]
      | some c => simp [findNode, hc, ih]

theorem mkDirChain_find : ∀ p : Path, findNode p (mkDirChain p) = some (.dir []) := by
  intro p
  induction p with
  | nil => rfl
  | cons s rest ih =>
    simp [mkDirChain, findNode, childNamed, ih]

theorem makedirs_find {p : Path} :
    ∀ {fs fs1 : FSNode}, makedirs p fs = some fs1 →
      findNode p fs1 = some (.dir []) := by
  induction p with
  | nil =>
    intro fs fs1 h
    simp [makedirs] at h
  | cons s rest ih =>
    intro fs fs1 h
    cases fs with
    | file c => simp [makedirs] at h
    | dir cs =>
      cases rest with
      | nil =>
        cases hc : childNamed cs s with
        | some c => simp [makedirs, hc] at h
        | none =>
          simp only [makedirs, hc] at h
          obtain rfl : FSNode.dir (cs ++ [(s, .dir [])]) = fs1 := by
            simpa using h
          simp [findNode, childNamed_append_of_none hc, childNamed]
      | cons s2 rest2 =>
        cases hc : childNamed cs s with
        | some c =>
          cases hm : makedirs (s2 :: rest2) c with
          | none => simp [makedirs, hc, hm] at h
          | some c2 =>
            simp only [makedirs, hc, hm] at h
            obtain rfl : FSNode.dir (replaceChild cs s c2) = fs1 := by
              simpa using h
            simp [findNode, childNamed_replaceChild_self hc, ih hm]
        | none =>
          simp only [makedirs, hc] at h
          obtain rfl : FSNode.dir (cs ++ [(s, mkDirChain (s2 :: rest2))]) = fs1 := by
            simpa using h
          simp [findNode, childNamed_append_of_none hc, childNamed, mkDirChain_find]

theorem writeFile_into_empty (content f : String) :
    ∀ (p : Path) (fs : FSNode), findNode p fs = some (.dir []) →
      ∃ fs2, writeFile content (p ++ [f]) fs = some fs2 ∧
        findNode p fs2 = some (.dir [(f, .file content)]) := by
  intro p
  induction p with
  | nil =>
    intro fs h
    obtain rfl : fs = .dir [] := by simpa [findNode] using h
    exact ⟨.dir [(f, .file content)], rfl, rfl⟩
  | cons s rest ih =>
    intro fs h
    cases fs with
    | file c => simp [findNode] at h
    | dir cs =>
      cases hc : childNamed cs s with
      | none => simp [findNode, hc] at h
      | some c =>
        have h2 : findNode rest c = some (.dir []) := by
          simpa [findNode, hc] using h
        obtain ⟨c2, hw, hf⟩ := ih c h2
        refine ⟨.dir (replaceChild cs s c2), ?_, ?_⟩
        · cases rest with
          | nil =>
            simp only [List.nil_append] at hw
            simp [writeFile, hc, hw]
          | cons s2 rest2 =>
            simp only [List.cons_append] at hw
            simp [writeFile, hc, hw]
        · cases rest with
          | nil =>
            obtain rfl : c2 = .dir [(f, .file content)] := by
              simpa [findNode] using hf
            simp [findNode, childNamed_replaceChild_self hc]
          | cons s2 rest2 =>
            simp [findNode, childNamed_replaceChild_self hc, hf]

/-- Claim C5: after a successful `create_sample_app` for a fresh name, the
spec-level `inspect` query reports an entrypoint and no sub-entries: the
created directory contains exactly `main.py` and no bracket-wrapped
sub-directories. -/
theorem inspect_after_create (fs : FSNode) (root : Path) (name : String)
    (fs2 : FSNode)
    (h : create_sample_app fs root name = (fs2, .created)) :
    inspect_entry fs2 root name = ⟨true, []⟩ := by
  unfold create_sample_app at h
  by_cases hex : pathExists fs (root ++ ["[" ++ name ++ "]"]) = true
  · rw [if_pos hex] at h
    simp at h
  · rw [if_neg hex] at h
    cases hmk : makedirs (root ++ ["[" ++ name ++ "]"]) fs with
    | none => rw [hmk] at h; simp at h
    | some fs1 =>
      rw [hmk] at h
      dsimp only at h
      cases hwf : writeFile (sampleCode name)
          ((root ++ ["[" ++ name ++ "]"]) ++ ["main.py"]) fs1 with
      | none => rw [hwf] at h; simp at h
      | some fs2w =>
        rw [hwf] at h
        obtain ⟨rfl, -⟩ : fs2w = fs2 ∧ True := by
          simpa using h
        have hfind1 := makedirs_find hmk
        obtain ⟨fs3, hw2, hf2⟩ :=
          writeFile_into_empty (sampleCode name) "main.py"
            (root ++ ["[" ++ name ++ "]"]) fs1 hfind1
        rw [hwf] at hw2
        obtain rfl : fs2w = fs3 := by simpa using hw2
        have h1 : pathExists fs2w ((root ++ ["[" ++ name ++ "]"]) ++ ["main.py"])
            = true := by
          unfold pathExists
          rw [findNode_append (root ++ ["[" ++ name ++ "]"]) ["main.py"] fs2w, hf2]
          simp [findNode, childNamed]
        have hps : pyStartsWith1 '[' "main.py" = false := by decide
        have h2 : subAppsOf fs2w (root ++ ["[" ++ name ++ "]"]) = [] := by
          simp [subAppsOf, listdir, hf2, List.filter, hps]
        unfold inspect_entry
        dsimp only
        rw [h1, h2]

/-- Witness for C5: create `X` in `fsT` (where `[X]` is fresh), then
inspect it. -/
theorem inspect_after_create_witness :
    inspect_entry (create_sample_app fsT [] "X").1 [] "X" = ⟨true, []⟩ :=
  inspect_after_create fsT [] "X" (create_sample_app fsT [] "X").1 (by rfl)

theorem interpretChoice_q (hasMain : Bool) (cnt : Nat) :
    interpretChoice hasMain cnt "q" = .quit := rfl

theorem quitNext_sysExit (env : RunEnv) (fs : FSNode) :
    ∀ {d : Path} {n : String} {inputs : List String}, QuitNext fs d n inputs →
      (run_app env fs d n inputs).exit = .sysExit 0 := by
  intro d n inputs h
  induction h with
  | here d n rest hsub =>
    rw [run_app_quit_eq env fs d n "q" rest (by simp [hsub])
      (interpretChoice_q _ _)]
  | deeper d n choice rest i hsub hch hnext ih =>
    rw [run_app_descend_eq env fs d n choice rest i (by simp [hsub]) hch]
    exact ih

/-- Claim C8: input `"q"` ends the whole launcher session, not just the
current menu level.  At a `run_app` menu it triggers `sys.exit(0)` at once
(`SystemExit` with code 0), and the exit propagates through every level of
the recursion (formalized through `QuitNext` scripts); at the main menu,
`"q"` (as decoded from the entered line) breaks the loop at once and the
process then ends with exit code 0, and when a nested `run_app` raised the
`SystemExit`, `main_menu` does not catch it — the session exit code is
likewise 0. -/
theorem quit_exits_whole_session (env : RunEnv) (root : Path) :
    (∀ (fs : FSNode) (d : Path) (n : String) (rest : List String),
       subAppsOf fs (d ++ ["[" ++ n ++ "]"]) ≠ [] →
       run_app env fs d n ("q" :: rest)
         = ⟨.sysExit 0, d, 1, [.drawBox (entryMenu fs d n)]⟩) ∧
    (∀ (fs : FSNode) (d : Path) (n : String) (inputs : List String),
       QuitNext fs d n inputs → (run_app env fs d n inputs).exit = .sysExit 0) ∧
    (∀ (st : SessState) (raw : String) (rest : List String),
       get_input (.line raw) = "q" →
       main_menu env root st (raw :: rest)
         = ⟨st, 1, [.drawBox (build_menu_content (list_apps st.fs root) st.aliasSet),
              .message "Exiting Config Tool."], 0, false⟩) ∧
    (∀ (st : SessState) (raw : String) (rest : List String) (k : Nat),
       pyIsDigit (get_input (.line raw)) = true →
       pyStrToNat (get_input (.line raw)) = k + 1 →
       k < (list_apps st.fs root).length →
       QuitNext st.fs root ((list_apps st.fs root).getD k "") rest →
       (main_menu env root st (raw :: rest)).exitCode = 0 ∧
       (main_menu env root st (raw :: rest)).hung = false) := by
  refine ⟨?_, ?_, ?_, ?_⟩
  · intro fs d n rest hsub
    rw [run_app_quit_eq env fs d n "q" rest (by simp [hsub])
      (interpretChoice_q _ _)]
  · intro fs d n inputs h
    exact quitNext_sysExit env fs h
  · intro st raw rest hq
    rw [main_menu]
    dsimp only
    rw [hq]
    rfl
  · intro st raw rest k hdig hval hk hqn
    have hq2 : get_input (.line raw) ≠ "q" := by
      intro heq
      rw [heq] at hdig
      exact absurd hdig (by decide)
    have hs2 : get_input (.line raw) ≠ "s" := by
      intro heq
      rw [heq] at hdig
      exact absurd hdig (by decide)
    have hexit := quitNext_sysExit env st.fs hqn
    rw [main_menu]
    dsimp only
    rw [if_neg hq2, if_neg hs2, if_pos hdig, hval]
    have hcond : (0 : Int) ≤ ((k + 1 : Nat) : Int) - 1 ∧
        ((k + 1 : Nat) : Int) - 1 < ((list_apps st.fs root).length : Int) := by
      constructor <;> [omega; (push_cast; omega)]
    rw [if_pos hcond]
    have e : (((k + 1 : Nat) : Int) - 1).toNat = k := by omega
    rw [e, hexit]
    exact ⟨rfl, rfl⟩

/-- Witness for C8: `"q"` at the nested menu of app `A`, and a main-menu
session that selects app 1 and then quits from the nested menu; both end the
session with exit code 0. -/
theorem quit_exits_whole_session_witness :
    run_app envOk fsA [] "A" ["q"]
      = ⟨.sysExit 0, [], 1, [.drawBox (entryMenu fsA [] "A")]⟩ ∧
    (main_menu envOk [] ⟨fsA, false⟩ ["1", "q"]).exitCode = 0 := by
  have h := quit_exits_whole_session envOk []
  refine ⟨h.1 fsA [] "A" [] (by decide), ?_⟩
  have h4 := h.2.2.2 ⟨fsA, false⟩ "1" ["q"] 0 (by decide) (by decide) (by decide)
    (QuitNext.here [] "A" [] (by decide))
  exact h4.1

end Dagger
